import Mathlib

/-!
Verification development for the velas/evm core: a shallow embedding of
`core/src/lib.rs` (the `Machine`), `runtime/src/lib.rs` (the `Runtime` and
`Config`), and `sputnikvm/src/vm/mod.rs` (the legacy `VM` driver), together
with theorems settling the specification's claims about them.

Modelling conventions:
- machine integers (`usize`, `u8`, `U256` words, `H256` bytes) are `Nat`;
  `usize::MAX` is `usizeMax = 2^64 - 1` (64-bit target);
- Rust `Result<T, E>` is `Except E T`; a Rust panic is `none` in an
  `Option`-returning embedding;
- code that is not under `src/` (the per-opcode evaluator, the `Handler`
  trait implementation, the runtime trap evaluator, the inner sputnikvm
  machine) is taken as an explicit function parameter, so theorems hold for
  every behaviour of the missing code; purely structural missing pieces
  (`Memory`, `Valids`, the `ExitReason` enums, `Context`) are modelled from
  the spec, marked as such in their doc comments.
-/

namespace Evm

/-- Model of `usize::MAX` on a 64-bit target. -/
def usizeMax : Nat := 2 ^ 64 - 1

/-- Modelled from the spec: `error.rs` of evm-core is not under `src/`.
Success exit reasons: `Stopped`, `Returned`, `Suicided`. -/
inductive ExitSucceed where
  | Stopped
  | Returned
  | Suicided
deriving DecidableEq

/-- Modelled from the spec: `error.rs` of evm-core is not under `src/`.
Frame-aborting error exit reasons. -/
inductive ExitError where
  | StackUnderflow
  | StackOverflow
  | InvalidJump
  | InvalidRange
  | DesignatedInvalid
  | CallTooDeep
  | CreateCollision
  | CreateContractLimit
  | OutOfOffset
  | OutOfGas
  | OutOfFund
  | PCUnderflow
  | CreateEmpty
  | Other
deriving DecidableEq

/-- Modelled from the spec: `error.rs` of evm-core is not under `src/`.
Revert exit reason. -/
inductive ExitRevert where
  | Reverted
deriving DecidableEq

/-- Modelled from the spec: `error.rs` of evm-core is not under `src/`.
Transaction-aborting fatal exit reasons. -/
inductive ExitFatal where
  | NotSupported
  | UnhandledInterrupt
  | CallErrorAsFatal
deriving DecidableEq

/-- Modelled from the spec: `error.rs` of evm-core is not under `src/`.
`ExitReason` is the tagged union of the four tiers. -/
inductive ExitReason where
  | Succeed (s : ExitSucceed)
  | Error (e : ExitError)
  | Revert (r : ExitRevert)
  | Fatal (f : ExitFatal)
deriving DecidableEq

/-- `ExitError::into::<ExitReason>()`: wrap the error in the `Error` tier. -/
def ExitError.into (e : ExitError) : ExitReason := ExitReason.Error e

/-- `ExitSucceed::into::<ExitReason>()`: wrap in the `Succeed` tier. -/
def ExitSucceed.into (s : ExitSucceed) : ExitReason := ExitReason.Succeed s

/-- `Capture<E, T>`: either a terminal exit or a trap for the caller. -/
inductive Capture (E T : Type) where
  | Exit (e : E)
  | Trap (t : T)
deriving DecidableEq

/-- `Opcode`: a one-byte instruction (the newtype `Opcode(u8)`). -/
structure Opcode where
  value : Nat
deriving DecidableEq

/-- `Opcode::as_u8`. -/
def Opcode.as_u8 (o : Opcode) : Nat := o.value

/-- The `Trap` type of evm-core: a trapped opcode byte. -/
abbrev Trap := Opcode

/-- Model of `H256` as its 32 bytes. -/
abbrev H256 := List Nat

/-- `H256::from_slice`, which panics (`none`) unless the slice has exactly
32 bytes. -/
def H256.from_slice (src : List Nat) : Option H256 :=
  if src.length = 32 then some src else none

/-- `U256::from(&[u8])`: big-endian bytes to a number. -/
def u256_from_be (l : List Nat) : Nat :=
  l.foldl (fun acc b => acc * 256 + b) 0

/-- Modelled from the spec: `memory.rs` of evm-core is not under `src/`.
A byte-addressed growable buffer tracking its active bytes and a limit. -/
structure Memory where
  data : List Nat
  limit : Nat
deriving DecidableEq

/-- Modelled from the spec: `Memory::new(limit)` starts empty. -/
def Memory.new (limit : Nat) : Memory := { data := [], limit }

/-- Modelled from the spec: `Memory::get(offset, len)` returns `len` bytes
starting at `offset`, zero-padding past the current size. -/
def Memory.get (m : Memory) (offset len : Nat) : List Nat :=
  (List.range len).map (fun i => m.data.getD (offset + i) 0)

/-- `Memory::as_ref`: the backing byte buffer. -/
def Memory.as_ref (m : Memory) : List Nat := m.data

/-- Modelled from the spec: `stack.rs` of evm-core is not under `src/`.
A bounded LIFO of 256-bit words (stored as `H256` in the source). -/
structure Stack where
  data : List H256
  limit : Nat
deriving DecidableEq

/-- Modelled from the spec: `Stack::new(limit)` starts empty. -/
def Stack.new (limit : Nat) : Stack := { data := [], limit }

/-- `Stack::as_ref`: the backing word list. -/
def Stack.as_ref (s : Stack) : List H256 := s.data

/-- Modelled from the spec: `valids.rs` of evm-core is not under `src/`.
Bit `i` is true iff `code[i] = 0x5b` (`JUMPDEST`) and `i` is not inside a
`PUSHn` immediate window; built by a single linear pass over the code. -/
def Valids.new : List Nat → List Bool
  | [] => []
  | b :: rest =>
    if b = 0x5b then
      true :: Valids.new rest
    else if 0x60 ≤ b ∧ b ≤ 0x7f then
      (false :: List.replicate (min (b - 0x5f) rest.length) false) ++
        Valids.new (rest.drop (b - 0x5f))
    else
      false :: Valids.new rest
termination_by l => l.length
decreasing_by
  all_goals simp only [List.length_drop, List.length_cons]
  all_goals omega

/-- A half-open `Range<U256>`; `stop` stands for the Rust field `end`,
which is a Lean keyword. -/
structure URange where
  start : Nat
  stop : Nat
deriving DecidableEq

/-- The core `Machine` of `core/src/lib.rs`. -/
structure Machine where
  data : List Nat
  code : List Nat
  position : Except ExitReason Nat
  return_range : URange
  valids : List Bool
  memory : Memory
  stack : Stack

/-- `Machine::new(code, data, stack_limit, memory_limit)`. -/
def Machine.new (code data : List Nat) (stack_limit memory_limit : Nat) : Machine :=
  { data, code, position := Except.ok 0,
    return_range := { start := 0, stop := 0 },
    valids := Valids.new code,
    memory := Memory.new memory_limit,
    stack := Stack.new stack_limit }

/-- `Machine::exit(reason)`: force the position to the terminal reason. -/
def Machine.exit (m : Machine) (reason : ExitReason) : Machine :=
  { m with position := Except.error reason }

/-- `Machine::inspect`: the next opcode and the stack, when running. -/
def Machine.inspect (m : Machine) : Option (Opcode × Stack) :=
  match m.position with
  | Except.error _ => none
  | Except.ok position => (m.code[position]?).map (fun v => (⟨v⟩, m.stack))

/-- `U256` subtraction, which panics (`none`) on underflow. -/
def checked_sub (a b : Nat) : Option Nat :=
  if b ≤ a then some (a - b) else none

/-- `U256::as_usize`, which panics (`none`) above `usize::MAX`. -/
def as_usize (n : Nat) : Option Nat :=
  if n ≤ usizeMax then some n else none

/-- The `while ret.len() < n { ret.push(0) }` loop: right-pad with zeros
up to length `n`. -/
def pad_to (l : List Nat) (n : Nat) : List Nat :=
  l ++ List.replicate (n - l.length) 0

/-- `Machine::return_value`: materialize `return_range` from memory,
clamping against `usize` exactly as the source does. -/
def Machine.return_value (m : Machine) : Option (List Nat) :=
  if usizeMax < m.return_range.start then
    (checked_sub m.return_range.stop m.return_range.start).bind (fun d =>
      (as_usize d).map (fun n => List.replicate n 0))
  else if usizeMax < m.return_range.stop then
    let ret := m.memory.get m.return_range.start (usizeMax - m.return_range.start)
    (checked_sub m.return_range.stop m.return_range.start).bind (fun d =>
      (as_usize d).map (fun n => pad_to ret n))
  else
    (checked_sub m.return_range.stop m.return_range.start).bind (fun d =>
      (as_usize d).map (fun n => m.memory.get m.return_range.start n))

/-- The `Control` returned by the per-opcode evaluator `eval`. -/
inductive Control where
  | Continue (n : Nat)
  | Exit (r : ExitReason)
  | Jump (n : Nat)
  | Trap (o : Opcode)
deriving DecidableEq

/-- The `MachineStep` trace record of `core/src/lib.rs`. -/
structure MachineStep where
  op : Nat
  pc : Nat
  opcode_pc : Nat
  code_hash : H256
  memory : List Nat
  stack : List H256
deriving DecidableEq

/-- The shape of the per-opcode evaluator `eval` (in `eval/mod.rs`, not
under `src/`): it may mutate the machine and returns a `Control`. -/
abbrev EvalF := Machine → Opcode → Nat → Control × Machine

/-- `Machine::step`, parametrized by the per-opcode evaluator. The result
is `none` when the source panics (the `H256::from_slice` of the whole code
inside the `MachineStep` construction requires exactly 32 code bytes);
otherwise it is the returned `Result<MachineStep, Capture>` paired with the
mutated machine. -/
def Machine.step (evalF : EvalF) (m : Machine) :
    Option (Except (Capture ExitReason Trap) MachineStep × Machine) :=
  match m.position with
  | Except.error reason => some (Except.error (Capture.Exit reason), m)
  | Except.ok position =>
    match m.code[position]? with
    | some v =>
      match H256.from_slice m.code with
      | none => none
      | some ch =>
        let opcode : Opcode := ⟨v⟩
        let mstep : MachineStep :=
          { op := opcode.as_u8, pc := position, opcode_pc := position,
            code_hash := ch,
            memory := (m.memory.as_ref.toChunks 32).map u256_from_be,
            stack := m.stack.as_ref }
        match evalF m opcode position with
        | (Control.Continue p, m1) =>
          some (Except.ok mstep, { m1 with position := Except.ok (position + p) })
        | (Control.Exit e, m1) =>
          some (Except.error (Capture.Exit e), { m1 with position := Except.error e })
        | (Control.Jump p, m1) =>
          some (Except.ok mstep, { m1 with position := Except.ok p })
        | (Control.Trap op2, m1) =>
          some (Except.error (Capture.Trap op2), { m1 with position := Except.ok (position + 1) })
    | none =>
      some (Except.error (Capture.Exit (ExitReason.Succeed ExitSucceed.Stopped)),
        { m with position := Except.error (ExitReason.Succeed ExitSucceed.Stopped) })

/-- The `Config` record of `runtime/src/lib.rs`. -/
structure Config where
  gas_ext_code : Nat
  gas_ext_code_hash : Nat
  gas_sstore_set : Nat
  gas_sstore_reset : Nat
  refund_sstore_clears : Int
  gas_balance : Nat
  gas_sload : Nat
  gas_suicide : Nat
  gas_suicide_new_account : Nat
  gas_call : Nat
  gas_expbyte : Nat
  gas_transaction_create : Nat
  gas_transaction_call : Nat
  gas_transaction_zero_data : Nat
  gas_transaction_non_zero_data : Nat
  sstore_gas_metering : Bool
  sstore_revert_under_stipend : Bool
  err_on_call_with_more_gas : Bool
  call_l64_after_gas : Bool
  empty_considered_exists : Bool
  create_increase_nonce : Bool
  stack_limit : Nat
  memory_limit : Nat
  call_stack_limit : Nat
  create_contract_limit : Option Nat
  call_stipend : Nat
  has_delegate_call : Bool
  has_create2 : Bool
  has_revert : Bool
  has_return_data : Bool
  has_bitwise_shifting : Bool
  has_chain_id : Bool
  has_self_balance : Bool
  has_ext_code_hash : Bool
  estimate : Bool
deriving DecidableEq

/-- `Config::frontier()`. -/
def Config.frontier : Config :=
  { gas_ext_code := 20,
    gas_ext_code_hash := 20,
    gas_balance := 20,
    gas_sload := 50,
    gas_sstore_set := 20000,
    gas_sstore_reset := 5000,
    refund_sstore_clears := 15000,
    gas_suicide := 0,
    gas_suicide_new_account := 0,
    gas_call := 40,
    gas_expbyte := 10,
    gas_transaction_create := 21000,
    gas_transaction_call := 21000,
    gas_transaction_zero_data := 4,
    gas_transaction_non_zero_data := 68,
    sstore_gas_metering := false,
    sstore_revert_under_stipend := false,
    err_on_call_with_more_gas := true,
    empty_considered_exists := true,
    create_increase_nonce := false,
    call_l64_after_gas := false,
    stack_limit := 1024,
    memory_limit := usizeMax,
    call_stack_limit := 1024,
    create_contract_limit := none,
    call_stipend := 2300,
    has_delegate_call := false,
    has_create2 := false,
    has_revert := false,
    has_return_data := false,
    has_bitwise_shifting := false,
    has_chain_id := false,
    has_self_balance := false,
    has_ext_code_hash := false,
    estimate := false }

/-- `Config::istanbul()`. -/
def Config.istanbul : Config :=
  { gas_ext_code := 700,
    gas_ext_code_hash := 700,
    gas_balance := 700,
    gas_sload := 800,
    gas_sstore_set := 20000,
    gas_sstore_reset := 5000,
    refund_sstore_clears := 15000,
    gas_suicide := 5000,
    gas_suicide_new_account := 25000,
    gas_call := 700,
    gas_expbyte := 50,
    gas_transaction_create := 53000,
    gas_transaction_call := 21000,
    gas_transaction_zero_data := 4,
    gas_transaction_non_zero_data := 16,
    sstore_gas_metering := true,
    sstore_revert_under_stipend := true,
    err_on_call_with_more_gas := false,
    empty_considered_exists := false,
    create_increase_nonce := true,
    call_l64_after_gas := true,
    stack_limit := 1024,
    memory_limit := usizeMax,
    call_stack_limit := 1024,
    create_contract_limit := some 0x6000,
    call_stipend := 2300,
    has_delegate_call := true,
    has_create2 := true,
    has_revert := true,
    has_return_data := true,
    has_bitwise_shifting := true,
    has_chain_id := true,
    has_self_balance := true,
    has_ext_code_hash := true,
    estimate := false }

/-- Modelled from the spec: `context.rs` of evm-runtime is not under
`src/`. The Context record of section 6: the immutable call frame
identity. Addresses and values are modelled as `Nat`. -/
structure Context where
  address : Nat
  caller : Nat
  origin : Nat
  apparent_value : Nat
  gas_price : Nat
  input_data : List Nat
deriving DecidableEq

/-- The `Runtime` of `runtime/src/lib.rs`: a `Machine` plus sticky status,
return-data buffer, context and config. -/
structure Runtime where
  machine : Machine
  status : Except ExitReason Unit
  return_data_buffer : List Nat
  context : Context
  config : Config

/-- `Runtime::new(code, data, context, config)`. -/
def Runtime.new (code data : List Nat) (context : Context) (config : Config) : Runtime :=
  { machine := Machine.new code data config.stack_limit config.memory_limit,
    status := Except.ok (),
    return_data_buffer := [],
    context, config }

/-- The `RuntimeStep` trace record of `runtime/src/lib.rs`. -/
structure RuntimeStep where
  address : Nat
  machine_step : MachineStep

/-- Modelled from the spec: `handler.rs` (the `Handler`/Host trait) is not
under `src/`. Only the hook `Runtime::run` consults before a step is
modelled, as a pure function: `pre_validate(context, opcode, stack)`.
`register_step` is pure instrumentation with no effect on the runtime. -/
structure HandlerOps where
  pre_validate : Context → Opcode → Stack → Except ExitError Unit

/-- The `Control` of the runtime trap evaluator (`runtime/src/eval`, not
under `src/`), with abstract interrupt payload types. -/
inductive RControl (CI CR : Type) where
  | Continue
  | CallInterrupt (i : CI)
  | CreateInterrupt (i : CR)
  | Exit (e : ExitReason)

/-- The `Resolve` value surfaced by `Runtime::run` on a trap
(`interrupt.rs`, not under `src/`): the interrupt payload; the resolver
handle borrowing the runtime is the returned runtime state itself. -/
inductive Resolve (CI CR : Type) where
  | Call (i : CI)
  | Create (i : CR)

/-- The shape of the runtime trap evaluator `eval` (in `runtime/src/eval`,
not under `src/`): it may mutate the runtime and returns an `RControl`. -/
abbrev RevalF (CI CR : Type) := Runtime → Opcode → HandlerOps → RControl CI CR × Runtime

/-- `Runtime::run`, parametrized by the core per-opcode evaluator, the
runtime trap evaluator, and the handler; the loop is driven by explicit
fuel. The result is `none` when the fuel runs out or the source panics;
otherwise it is the returned `Capture` paired with the mutated runtime. -/
def Runtime.run {CI CR : Type} (evalF : EvalF) (reval : RevalF CI CR) (h : HandlerOps) :
    Nat → Runtime → Option (Capture ExitReason (Resolve CI CR) × Runtime)
  | 0, _ => none
  | fuel + 1, rt =>
    let rt1 :=
      match rt.machine.inspect with
      | some (opcode, stack) =>
        match h.pre_validate rt.context opcode stack with
        | Except.ok _ => rt
        | Except.error e =>
          { rt with machine := rt.machine.exit e.into, status := Except.error e.into }
      | none => rt
    match rt1.status with
    | Except.error e => some (Capture.Exit e, rt1)
    | Except.ok _ =>
      match Machine.step evalF rt1.machine with
      | none => none
      | some (Except.ok machine_step, m1) =>
        let _runtime_step : RuntimeStep := { address := rt1.context.address, machine_step }
        Runtime.run evalF reval h fuel { rt1 with machine := m1 }
      | some (Except.error (Capture.Exit e), m1) =>
        some (Capture.Exit e, { rt1 with machine := m1, status := Except.error e })
      | some (Except.error (Capture.Trap opcode), m1) =>
        match reval { rt1 with machine := m1 } opcode h with
        | (RControl.Continue, rt2) => Runtime.run evalF reval h fuel rt2
        | (RControl.CallInterrupt i, rt2) => some (Capture.Trap (Resolve.Call i), rt2)
        | (RControl.CreateInterrupt i, rt2) => some (Capture.Trap (Resolve.Create i), rt2)
        | (RControl.Exit e, rt2) =>
          some (Capture.Exit e, { rt2 with machine := rt2.machine.exit e, status := Except.error e })

namespace Sputnik

/-- The `MachineStatus` of the legacy sputnikvm evaluator (`eval`, not
under `src/`), with abstract context (`κ`), call-range (`γ`) and
machine-error (`ε`) types; only the constructor shapes `VM` matches on are
fixed by `vm/mod.rs`. -/
inductive MachineStatus (κ γ ε : Type) where
  | Running
  | ExitedOk
  | ExitedErr (e : ε)
  | InvokeCall (c : κ) (r : γ)
  | InvokeCreate (c : κ)

/-- The `VMStatus` of `sputnikvm/src/vm/mod.rs`, with abstract `VMError`
type `ω`. -/
inductive VMStatus (ω : Type) where
  | Running
  | ExitedOk
  | ExitedErr (e : ω)
deriving DecidableEq

/-- Modelled from the source's usage: the inner sputnikvm `Machine`
(`eval.rs`), `Context`/`BlockHeader`/`Patch` (`params.rs`, `patch.rs`) and
the error types (`errors.rs`) are not under `src/`. The machine type `σ`
is abstract; this record carries exactly the operations `VM` invokes on
it: `Machine::new`, `status`, `step` (returning the mutated machine and
the `Result<(), RequireError>`), `derive`, `apply_sub`, and the
`Into<VMError>` conversion of machine errors. -/
structure MachineOps (σ κ β π ε γ ω ρ : Type) where
  new : κ → β → π → Nat → σ
  status : σ → MachineStatus κ γ ε
  step : σ → σ × Except ρ Unit
  derive : σ → κ → σ
  apply_sub : σ → σ → σ
  into_vm_error : ε → ω

/-- The `VM` of `sputnikvm/src/vm/mod.rs`: a stack of machines plus the
call/create history. -/
structure VM (σ κ : Type) where
  machines : List σ
  history : List κ

/-- `VM::new(context, block, patch)`: push exactly one machine with depth
1. -/
def VM.new {σ κ β π ε γ ω ρ : Type} (ops : MachineOps σ κ β π ε γ ω ρ)
    (context : κ) (block : β) (patch : π) : VM σ κ :=
  { machines := [ops.new context block patch 1], history := [] }

/-- `VM::status`: the status of `machines[0]`, which panics (`none`) on an
empty machines vector. -/
def VM.status {σ κ β π ε γ ω ρ : Type} (ops : MachineOps σ κ β π ε γ ω ρ)
    (vm : VM σ κ) : Option (VMStatus ω) :=
  match vm.machines.head? with
  | none => none
  | some m0 =>
    match ops.status m0 with
    | MachineStatus.Running => some VMStatus.Running
    | MachineStatus.InvokeCreate _ => some VMStatus.Running
    | MachineStatus.InvokeCall _ _ => some VMStatus.Running
    | MachineStatus.ExitedOk => some VMStatus.ExitedOk
    | MachineStatus.ExitedErr err => some (VMStatus.ExitedErr (ops.into_vm_error err))

/-- `VM::step`: act on the last machine; the `unwrap`s on an empty
machines vector are `none`. -/
def VM.step {σ κ β π ε γ ω ρ : Type} (ops : MachineOps σ κ β π ε γ ω ρ)
    (vm : VM σ κ) : Option (VM σ κ × Except ρ Unit) :=
  match vm.machines.getLast? with
  | none => none
  | some last =>
    match ops.status last with
    | MachineStatus.Running =>
      let (m2, res) := ops.step last
      some ({ vm with machines := vm.machines.dropLast ++ [m2] }, res)
    | MachineStatus.ExitedOk =>
      if vm.machines.length ≤ 1 then some (vm, Except.ok ())
      else
        match vm.machines.dropLast.getLast? with
        | none => none
        | some parent =>
          some ({ vm with
            machines := vm.machines.dropLast.dropLast ++ [ops.apply_sub parent last] },
            Except.ok ())
    | MachineStatus.ExitedErr _ =>
      if vm.machines.length ≤ 1 then some (vm, Except.ok ())
      else
        match vm.machines.dropLast.getLast? with
        | none => none
        | some parent =>
          some ({ vm with
            machines := vm.machines.dropLast.dropLast ++ [ops.apply_sub parent last] },
            Except.ok ())
    | MachineStatus.InvokeCall context _ =>
      some ({ machines := vm.machines ++ [ops.derive last context],
              history := vm.history ++ [context] }, Except.ok ())
    | MachineStatus.InvokeCreate context =>
      some ({ machines := vm.machines ++ [ops.derive last context],
              history := vm.history ++ [context] }, Except.ok ())

/-- `VM::fire`: loop `step` while the status is `Running`, driven by
explicit fuel; `none` when the fuel runs out or the source panics. -/
def VM.fire {σ κ β π ε γ ω ρ : Type} (ops : MachineOps σ κ β π ε γ ω ρ) :
    Nat → VM σ κ → Option (VM σ κ × Except ρ Unit)
  | 0, _ => none
  | fuel + 1, vm =>
    match VM.status ops vm with
    | none => none
    | some VMStatus.Running =>
      match VM.step ops vm with
      | none => none
      | some (vm2, Except.error e) => some (vm2, Except.error e)
      | some (vm2, Except.ok _) => VM.fire ops fuel vm2
    | some VMStatus.ExitedOk => some (vm, Except.ok ())
    | some (VMStatus.ExitedErr _) => some (vm, Except.ok ())

end Sputnik

/-! Concrete fixtures used to instantiate the theorems below. -/

/-- A per-opcode evaluator that always exits with `Stopped`. -/
def evalStop : EvalF :=
  fun m _ _ => (Control.Exit (ExitReason.Succeed ExitSucceed.Stopped), m)

/-- A per-opcode evaluator that always traps on the current opcode. -/
def evalTrap : EvalF := fun m o _ => (Control.Trap o, m)

/-- A small concrete memory. -/
def memW : Memory := { data := [1, 2, 3, 4], limit := usizeMax }

/-- An empty concrete stack. -/
def stackW : Stack := { data := [], limit := 1024 }

/-- Machine hitting the `start > usize::MAX` branch of `return_value`. -/
def mW1a : Machine :=
  { data := [], code := [], position := Except.ok 0,
    return_range := { start := 2 ^ 64, stop := 2 ^ 64 + 2 },
    valids := [], memory := memW, stack := stackW }

/-- Machine hitting the `end > usize::MAX` branch of `return_value`. -/
def mW1b : Machine := { mW1a with return_range := { start := 5, stop := 2 ^ 64 } }

/-- Machine hitting the in-range branch of `return_value`. -/
def mW1c : Machine := { mW1a with return_range := { start := 1, stop := 3 } }

/-- An already-exited machine. -/
def mW2 : Machine :=
  { data := [], code := [0x00],
    position := Except.error (ExitReason.Revert ExitRevert.Reverted),
    return_range := { start := 0, stop := 0 },
    valids := [false], memory := memW, stack := stackW }

/-- A running machine whose code is a single `STOP` byte. -/
def mW3 : Machine := { mW2 with position := Except.ok 0 }

/-- A running machine whose program counter is past the end of the code. -/
def mW4 : Machine :=
  { mW2 with
    code := [0x01, 0x02, 0x03],
    position := Except.ok 5,
    valids := [false, false, false] }

/-- A running machine with exactly 32 bytes of code (all `CALL`). -/
def mW5 : Machine :=
  { mW2 with
    code := List.replicate 32 0xf1,
    position := Except.ok 0,
    valids := List.replicate 32 false }

/-- A concrete call-frame context. -/
def ctxW : Context :=
  { address := 1, caller := 2, origin := 2, apparent_value := 0,
    gas_price := 1, input_data := [] }

/-- A runtime whose machine is running on a single `STOP` byte. -/
def rtW6 : Runtime :=
  { machine := mW3, status := Except.ok (), return_data_buffer := [],
    context := ctxW, config := Config.istanbul }

/-- A runtime whose machine and status are both terminal. -/
def rtW7 : Runtime :=
  { rtW6 with
    machine := { mW3 with position := Except.error (ExitReason.Error ExitError.OutOfGas) },
    status := Except.error (ExitReason.Error ExitError.OutOfGas) }

/-- A handler whose `pre_validate` always fails with `OutOfGas`. -/
def handlerFail : HandlerOps :=
  { pre_validate := fun _ _ _ => Except.error ExitError.OutOfGas }

/-- A handler whose `pre_validate` always succeeds. -/
def handlerOk : HandlerOps := { pre_validate := fun _ _ _ => Except.ok () }

/-- A runtime trap evaluator that always continues. -/
def revalW : RevalF Unit Unit := fun rt _ _ => (RControl.Continue, rt)

/-- Concrete operations for the abstract sputnikvm machine: always
running. -/
def opsW9 : Sputnik.MachineOps Nat Unit Unit Unit Unit Unit Unit Unit :=
  { new := fun _ _ _ d => d,
    status := fun _ => Sputnik.MachineStatus.Running,
    step := fun m => (m + 1, Except.ok ()),
    derive := fun m _ => m,
    apply_sub := fun a _ => a,
    into_vm_error := fun e => e }

/-- Concrete operations for the abstract sputnikvm machine: already
exited. -/
def opsW10 : Sputnik.MachineOps Nat Unit Unit Unit Unit Unit Unit Unit :=
  { opsW9 with status := fun _ => Sputnik.MachineStatus.ExitedOk }

/-- A concrete one-machine VM. -/
def vmW : Sputnik.VM Nat Unit := { machines := [7], history := [] }

/-! Theorems settling the claims. -/

/-- Claim C1: for every Machine, `return_value` materializes
`return_range` by exactly the three-branch policy of the source: past
`usize::MAX` start, all-zero bytes of the range's size; past `usize::MAX`
end, the memory bytes from `start` for `usize::MAX - start` bytes followed
by zero padding up to the range's size; otherwise `memory.get(start,
end - start)`. The hypotheses state that the branch is taken and that the
wrapped `U256` subtraction and `as_usize` conversions the source performs
do not panic. -/
theorem return_value_three_branch_policy (m : Machine) :
    (usizeMax < m.return_range.start →
      m.return_range.start ≤ m.return_range.stop →
      m.return_range.stop - m.return_range.start ≤ usizeMax →
      m.return_value =
        some (List.replicate (m.return_range.stop - m.return_range.start) 0)) ∧
    (m.return_range.start ≤ usizeMax →
      usizeMax < m.return_range.stop →
      m.return_range.stop - m.return_range.start ≤ usizeMax →
      m.return_value =
        some (pad_to (m.memory.get m.return_range.start (usizeMax - m.return_range.start))
          (m.return_range.stop - m.return_range.start))) ∧
    (m.return_range.start ≤ m.return_range.stop →
      m.return_range.stop ≤ usizeMax →
      m.return_value =
        some (m.memory.get m.return_range.start
          (m.return_range.stop - m.return_range.start))) := by
  refine ⟨fun h1 h2 h3 => ?_, fun h1 h2 h3 => ?_, fun h1 h2 => ?_⟩
  · simp [Machine.return_value, checked_sub, as_usize, h1, h2, h3]
  · have hn : ¬ usizeMax < m.return_range.start := by omega
    have hle : m.return_range.start ≤ m.return_range.stop := by omega
    simp [Machine.return_value, checked_sub, as_usize, hn, h2, hle, h3]
  · have hn : ¬ usizeMax < m.return_range.start := by omega
    have hn2 : ¬ usizeMax < m.return_range.stop := by omega
    have h3 : m.return_range.stop - m.return_range.start ≤ usizeMax := by omega
    simp [Machine.return_value, checked_sub, as_usize, hn, hn2, h1, h3]

/-- Witness for C1: the three branches at concrete machines. -/
theorem return_value_three_branch_policy_witness :
    mW1a.return_value =
      some (List.replicate (mW1a.return_range.stop - mW1a.return_range.start) 0) ∧
    mW1b.return_value =
      some (pad_to (mW1b.memory.get mW1b.return_range.start
          (usizeMax - mW1b.return_range.start))
        (mW1b.return_range.stop - mW1b.return_range.start)) ∧
    mW1c.return_value =
      some (mW1c.memory.get mW1c.return_range.start
        (mW1c.return_range.stop - mW1c.return_range.start)) :=
  ⟨(return_value_three_branch_policy mW1a).1 (by decide) (by decide) (by decide),
   (return_value_three_branch_policy mW1b).2.1 (by decide) (by decide) (by decide),
   (return_value_three_branch_policy mW1c).2.2 (by decide) (by decide)⟩

/-- Claim C2: exit is sticky and idempotent: whenever the machine's
position is `Err(r)` — whether set by `exit(r)` or by an earlier
terminating step — `step` returns `Capture::Exit(r)` and leaves the whole
machine (stack, memory, return_range, position) unchanged, for every
per-opcode evaluator. -/
theorem step_exit_sticky (evalF : EvalF) (m : Machine) (r : ExitReason)
    (hpos : m.position = Except.error r) :
    Machine.step evalF m = some (Except.error (Capture.Exit r), m) := by
  simp [Machine.step, hpos]

/-- Witness for C2: a concrete exited machine. -/
theorem step_exit_sticky_witness :
    Machine.step evalStop mW2 =
      some (Except.error (Capture.Exit (ExitReason.Revert ExitRevert.Reverted)), mW2) :=
  step_exit_sticky evalStop mW2 (ExitReason.Revert ExitRevert.Reverted) rfl

/-- Claim C3 (code bug): the claim says `step` is a total function over a
running machine, the `MachineStep` trace record being constructible for
code of every length; but the source's `H256::from_slice(self.code)`
panics unless the code has exactly 32 bytes. Evaluating the embedding at a
running machine with one byte of code yields the panic (`none`). -/
theorem step_panics_on_one_byte_code : Machine.step evalStop mW3 = none := rfl

/-- Claim C4: for every running machine whose program counter is at or
past the end of the code, `step` halts the machine with
`Succeed::Stopped`: the position becomes that terminal reason and
`Capture::Exit(Stopped)` is returned. -/
theorem step_past_end_stops (evalF : EvalF) (m : Machine) (pc : Nat)
    (hpos : m.position = Except.ok pc) (hlen : m.code.length ≤ pc) :
    Machine.step evalF m =
      some (Except.error (Capture.Exit (ExitReason.Succeed ExitSucceed.Stopped)),
        { m with position := Except.error (ExitReason.Succeed ExitSucceed.Stopped) }) := by
  have hget : m.code[pc]? = none := List.getElem?_eq_none hlen
  simp [Machine.step, hpos, hget]

/-- Witness for C4: a concrete machine with `pc = 5` past its 3 code
bytes. -/
theorem step_past_end_stops_witness :
    Machine.step evalStop mW4 =
      some (Except.error (Capture.Exit (ExitReason.Succeed ExitSucceed.Stopped)),
        { mW4 with position := Except.error (ExitReason.Succeed ExitSucceed.Stopped) }) :=
  step_past_end_stops evalStop mW4 5 rfl (by decide)

/-- Claim C5: whenever the per-opcode evaluator yields `Trap(op)` at
position `pc`, `step` advances the program counter past the opcode —
the position becomes `Ok(pc + 1)` — and surfaces exactly that opcode to
the caller as `Capture::Trap(op)`. The evaluator only runs after the
`MachineStep` trace record is built, which requires 32 code bytes (see
C3), hence the code-length hypothesis. -/
theorem step_trap_advances_pc (evalF : EvalF) (m : Machine) (pc v : Nat)
    (op : Opcode) (m1 : Machine)
    (hpos : m.position = Except.ok pc)
    (hget : m.code[pc]? = some v)
    (hlen : m.code.length = 32)
    (heval : evalF m ⟨v⟩ pc = (Control.Trap op, m1)) :
    Machine.step evalF m =
      some (Except.error (Capture.Trap op), { m1 with position := Except.ok (pc + 1) }) := by
  simp [Machine.step, hpos, hget, H256.from_slice, hlen, heval]

/-- Witness for C5: a trapping evaluator on a machine with 32 `CALL`
bytes. -/
theorem step_trap_advances_pc_witness :
    Machine.step evalTrap mW5 =
      some (Except.error (Capture.Trap ⟨0xf1⟩), { mW5 with position := Except.ok (0 + 1) }) :=
  step_trap_advances_pc evalTrap mW5 0 0xf1 ⟨0xf1⟩ mW5 rfl (by decide) (by decide) rfl

/-- Claim C8: the frontier preset disables `has_revert`,
`has_return_data` and `has_create2`, the istanbul preset enables all
three, and both presets set `stack_limit` to 1024. -/
theorem config_presets_gates_and_stack_limit :
    Config.frontier.has_revert = false ∧ Config.frontier.has_return_data = false ∧
    Config.frontier.has_create2 = false ∧ Config.istanbul.has_revert = true ∧
    Config.istanbul.has_return_data = true ∧ Config.istanbul.has_create2 = true ∧
    Config.frontier.stack_limit = 1024 ∧ Config.istanbul.stack_limit = 1024 :=
  ⟨rfl, rfl, rfl, rfl, rfl, rfl, rfl, rfl⟩

/-- Claim C6: in every iteration of `Runtime::run` in which the machine
has a next opcode, `pre_validate(context, opcode, stack)` is consulted
before the machine steps; if it returns `Err(e)`, the frame terminates
with `e`: the machine is exited with `e`, the runtime status becomes
`Err(e)`, and `run` returns `Capture::Exit(e)` without executing that
opcode (the machine is left unchanged apart from its position, for every
core and trap evaluator and every fuel). -/
theorem run_pre_validate_failure_terminates {CI CR : Type}
    (evalF : EvalF) (reval : RevalF CI CR) (h : HandlerOps)
    (fuel : Nat) (rt : Runtime) (opcode : Opcode) (stack : Stack) (e : ExitError)
    (hins : rt.machine.inspect = some (opcode, stack))
    (hpre : h.pre_validate rt.context opcode stack = Except.error e) :
    Runtime.run evalF reval h (fuel + 1) rt =
      some (Capture.Exit e.into,
        { rt with
          machine := { rt.machine with position := Except.error e.into },
          status := Except.error e.into }) := by
  simp [Runtime.run, hins, hpre, Machine.exit]

/-- Witness for C6: a failing handler on a running runtime. -/
theorem run_pre_validate_failure_terminates_witness :
    Runtime.run evalStop revalW handlerFail (0 + 1) rtW6 =
      some (Capture.Exit (ExitError.OutOfGas).into,
        { rtW6 with
          machine := { rtW6.machine with position := Except.error (ExitError.OutOfGas).into },
          status := Except.error (ExitError.OutOfGas).into }) :=
  run_pre_validate_failure_terminates evalStop revalW handlerFail 0 rtW6
    ⟨0x00⟩ stackW ExitError.OutOfGas rfl rfl

/-- Claim C7: the runtime status is sticky: once `status = Err(e)` (the
machine then being exited as well, the invariant every status assignment
in `Runtime::run` maintains), every subsequent call to `run` returns
`Capture::Exit(e)` without stepping the machine and with the runtime —
status included — unchanged, for every handler, evaluator and fuel. -/
theorem run_status_sticky {CI CR : Type}
    (evalF : EvalF) (reval : RevalF CI CR) (h : HandlerOps)
    (fuel : Nat) (rt : Runtime) (e r : ExitReason)
    (hstatus : rt.status = Except.error e)
    (hpos : rt.machine.position = Except.error r) :
    Runtime.run evalF reval h (fuel + 1) rt = some (Capture.Exit e, rt) := by
  have hins : rt.machine.inspect = none := by simp [Machine.inspect, hpos]
  simp [Runtime.run, hins, hstatus]

/-- Witness for C7: a terminated runtime with an always-passing handler. -/
theorem run_status_sticky_witness :
    Runtime.run evalStop revalW handlerOk (0 + 1) rtW7 =
      some (Capture.Exit (ExitReason.Error ExitError.OutOfGas), rtW7) :=
  run_status_sticky evalStop revalW handlerOk 0 rtW7
    (ExitReason.Error ExitError.OutOfGas) (ExitReason.Error ExitError.OutOfGas) rfl rfl

/-- Claim C9: for every VM built by `VM::new` the machines vector is
nonempty, and `VM::step` on a VM with a nonempty machines vector never
accesses an empty vector (returns a value rather than panicking) and
leaves the machines vector nonempty: `new` pushes exactly one machine and
`step` pops only when more than one machine is present. -/
theorem vm_machines_nonempty {σ κ β π ε γ ω ρ : Type}
    (ops : Sputnik.MachineOps σ κ β π ε γ ω ρ) (context : κ) (block : β) (patch : π) :
    (Sputnik.VM.new ops context block patch).machines ≠ [] ∧
    ∀ vm : Sputnik.VM σ κ, vm.machines ≠ [] →
      ∃ r : Sputnik.VM σ κ × Except ρ Unit,
        Sputnik.VM.step ops vm = some r ∧ r.1.machines ≠ [] := by
  constructor
  · simp [Sputnik.VM.new]
  · intro vm hne
    cases hlast : vm.machines.getLast? with
    | none => exact absurd (List.getLast?_eq_none_iff.mp hlast) hne
    | some last =>
      cases hst : ops.status last with
      | Running =>
        refine ⟨({ vm with machines := vm.machines.dropLast ++ [(ops.step last).1] },
          (ops.step last).2), ?_, by simp⟩
        simp [Sputnik.VM.step, hlast, hst]
      | ExitedOk =>
        by_cases hlen : vm.machines.length ≤ 1
        · exact ⟨(vm, Except.ok ()), by simp [Sputnik.VM.step, hlast, hst, hlen], hne⟩
        · have hdne : vm.machines.dropLast ≠ [] := by
            have hdl : vm.machines.dropLast.length = vm.machines.length - 1 :=
              List.length_dropLast vm.machines
            intro hd
            rw [hd] at hdl
            simp at hdl
            omega
          cases hdlast : vm.machines.dropLast.getLast? with
          | none => exact absurd (List.getLast?_eq_none_iff.mp hdlast) hdne
          | some parent =>
            refine ⟨({ vm with
              machines := vm.machines.dropLast.dropLast ++ [ops.apply_sub parent last] },
              Except.ok ()), ?_, by simp⟩
            simp [Sputnik.VM.step, hlast, hst, hlen, hdlast]
      | ExitedErr err =>
        by_cases hlen : vm.machines.length ≤ 1
        · exact ⟨(vm, Except.ok ()), by simp [Sputnik.VM.step, hlast, hst, hlen], hne⟩
        · have hdne : vm.machines.dropLast ≠ [] := by
            have hdl : vm.machines.dropLast.length = vm.machines.length - 1 :=
              List.length_dropLast vm.machines
            intro hd
            rw [hd] at hdl
            simp at hdl
            omega
          cases hdlast : vm.machines.dropLast.getLast? with
          | none => exact absurd (List.getLast?_eq_none_iff.mp hdlast) hdne
          | some parent =>
            refine ⟨({ vm with
              machines := vm.machines.dropLast.dropLast ++ [ops.apply_sub parent last] },
              Except.ok ()), ?_, by simp⟩
            simp [Sputnik.VM.step, hlast, hst, hlen, hdlast]
      | InvokeCall context2 range =>
        refine ⟨({ machines := vm.machines ++ [ops.derive last context2]
                   history := vm.history ++ [context2] }, Except.ok ()), ?_, by simp⟩
        simp [Sputnik.VM.step, hlast, hst]
      | InvokeCreate context2 =>
        refine ⟨({ machines := vm.machines ++ [ops.derive last context2]
                   history := vm.history ++ [context2] }, Except.ok ()), ?_, by simp⟩
        simp [Sputnik.VM.step, hlast, hst]

/-- Witness for C9: the concrete always-running operations and a
one-machine VM. -/
theorem vm_machines_nonempty_witness :
    (Sputnik.VM.new opsW9 () () ()).machines ≠ [] ∧
    ∃ r : Sputnik.VM Nat Unit × Except Unit Unit,
      Sputnik.VM.step opsW9 vmW = some r ∧ r.1.machines ≠ [] :=
  ⟨(vm_machines_nonempty opsW9 () () ()).1,
   (vm_machines_nonempty opsW9 () () ()).2 vmW (by decide)⟩

/-- Claim C10: if `VM::fire` returns `Ok(())`, the VM status is
`ExitedOk` or `ExitedErr(_)`, never `Running`: the fire loop only returns
without error once `status()` reports a terminal state. -/
theorem vm_fire_ok_terminal {σ κ β π ε γ ω ρ : Type}
    (ops : Sputnik.MachineOps σ κ β π ε γ ω ρ) :
    ∀ (fuel : Nat) (vm vm' : Sputnik.VM σ κ),
      Sputnik.VM.fire ops fuel vm = some (vm', Except.ok ()) →
      Sputnik.VM.status ops vm' = some Sputnik.VMStatus.ExitedOk ∨
        ∃ e : ω, Sputnik.VM.status ops vm' = some (Sputnik.VMStatus.ExitedErr e) := by
  intro fuel
  induction fuel with
  | zero =>
    intro vm vm' hfire
    simp [Sputnik.VM.fire] at hfire
  | succ n ih =>
    intro vm vm' hfire
    rw [Sputnik.VM.fire] at hfire
    cases hst : Sputnik.VM.status (ω := ω) ops vm with
    | none => rw [hst] at hfire; simp at hfire
    | some s =>
      rw [hst] at hfire
      cases s with
      | Running =>
        simp only [] at hfire
        cases hstep : Sputnik.VM.step ops vm with
        | none => rw [hstep] at hfire; simp at hfire
        | some r =>
          rw [hstep] at hfire
          obtain ⟨vm2, res⟩ := r
          cases res with
          | error e => simp at hfire
          | ok u => exact ih vm2 vm' hfire
      | ExitedOk =>
        simp only [Option.some.injEq, Prod.mk.injEq] at hfire
        exact Or.inl (hfire.1 ▸ hst)
      | ExitedErr e =>
        simp only [Option.some.injEq, Prod.mk.injEq] at hfire
        exact Or.inr ⟨e, hfire.1 ▸ hst⟩

/-- Witness for C10: firing an already-exited one-machine VM. -/
theorem vm_fire_ok_terminal_witness :
    Sputnik.VM.status opsW10 vmW = some Sputnik.VMStatus.ExitedOk ∨
      ∃ e : Unit, Sputnik.VM.status opsW10 vmW = some (Sputnik.VMStatus.ExitedErr e) :=
  vm_fire_ok_terminal opsW10 1 vmW vmW rfl

end Evm
